import Mathlib

/-!
Verification of the CTracker audio engine (src/CTracker.c).

The C source is shallowly embedded: C `int` is modelled as `ℤ` (with `Int.tdiv` /
`Int.tmod` for C's truncating `/` and `%`), C `Uint32` narrowing conversions as
`% 4294967296`, and C `double` arithmetic as exact `ℚ` arithmetic (the algorithms
use only `+ - * /`, comparisons and floor/truncate, so `ℚ` mirrors them shape for
shape).  Allocation-failure paths (`malloc` returning NULL) are not modelled.
Each definition carries a comment pointing at the C source lines it embeds.
-/

namespace CTracker

/-- Truncation of a rational toward zero: the meaning of C's `(Sint16)x` /
`(Uint32)x` double-to-integer conversions (C17 6.3.1.4: "the fractional part is
discarded", i.e. truncation toward zero) for in-range values. -/
def truncQ (q : ℚ) : ℤ := if 0 ≤ q then ⌊q⌋ else ⌈q⌉

/-- Saturation of an `int` sum to the signed-16-bit range; embeds the repeated
clamp idiom `if (mixed > 32767) ...; if (mixed < -32768) ...` of
`save_song_to_wav` (CTracker.c lines 835-836, 841-842, 866-867, 872-873,
885-886, 891-892). -/
def clamp16 (x : ℤ) : ℤ := if x > 32767 then 32767 else if x < -32768 then -32768 else x

/-- C conversion of an `int` value to `Uint32` (reduction mod 2^32). -/
def toUint32 (n : ℤ) : ℤ := n % 4294967296

theorem truncQ_intCast (n : ℤ) : truncQ (n : ℚ) = n := by
  unfold truncQ
  split_ifs <;> simp

theorem truncQ_bounds {q : ℚ} {lo hi : ℤ} (h1 : (lo : ℚ) ≤ q) (h2 : q ≤ (hi : ℚ)) :
    lo ≤ truncQ q ∧ truncQ q ≤ hi := by
  unfold truncQ
  split_ifs with h
  · refine ⟨Int.le_floor.2 h1, ?_⟩
    have := Int.floor_le_floor h2
    simpa using this
  · refine ⟨?_, ?_⟩
    · have := Int.ceil_le_ceil h1
      simpa using this
    · have := Int.ceil_le_ceil h2
      simpa using this

theorem tdiv_eq_ediv_nonneg {a b : ℤ} (ha : 0 ≤ a) (hb : 0 ≤ b) : a.tdiv b = a / b := by
  lift a to ℕ using ha
  lift b to ℕ using hb
  rfl

theorem ratio_three_halves_not_fast : ¬ |(3/2 : ℚ) - 1| < 1/1000 := by
  rw [show (3/2 : ℚ) - 1 = 1/2 by norm_num, abs_of_nonneg (by norm_num : (0 : ℚ) ≤ 1/2)]
  norm_num

/-! ## Data model (CTracker.c lines 41-62)

`Cell`, `Track` and `Song`; the fixed-size C arrays `Track.cells[MAX_ROWS]` and
`Song.channels[MAX_CHANNELS]` are modelled as a total indexing function
`channels : ℕ → ℕ → Cell` (channel index, then row index); all code paths only
read indices below `num_channels` / `num_rows`. -/

/-- Embeds `Cell` (CTracker.c lines 41-48). -/
structure Cell where
  note : ℤ
  original_note : ℤ
  duration_ms : ℤ
  sample : String
  playing : ℤ
  pitch_ratio : ℚ

/-- Embeds `Song` (CTracker.c lines 54-62); `channels ch row` is
`song.channels[ch].cells[row]`. -/
structure Song where
  channels : ℕ → ℕ → Cell
  num_channels : ℤ
  num_rows : ℤ
  bpm : ℤ
  loop_start : ℤ
  loop_end : ℤ
  loop_enabled : ℤ

/-- Embeds `get_note_duration_ms` (CTracker.c lines 108-113):
`if (song->bpm == 0) return 500; return (60000 / song->bpm) / 4;`. -/
def get_note_duration_ms (song : Song) : ℤ :=
  if song.bpm = 0 then 500 else ((60000 : ℤ).tdiv song.bpm).tdiv 4

/-! ## PCM resampler (CTracker.c lines 116-151, `pitch_shift_sample`) -/

/-- Embeds the ratio clamp of `pitch_shift_sample` (CTracker.c lines 128-129):
`if (pitch_ratio > 2.0) pitch_ratio = 2.0; if (pitch_ratio < 0.5) pitch_ratio = 0.5;`. -/
def clamp_pitch (r : ℚ) : ℚ := if r > 2 then 2 else if r < 1/2 then 1/2 else r

/-- Embeds one iteration of the interpolation loop of `pitch_shift_sample`
(CTracker.c lines 137-148) at output index `i`, for an already clamped ratio
`r`:  `src_pos = i * pitch_ratio; idx1 = (Uint32)src_pos; idx2 = idx1 + 1;
if (idx2 >= original_len) idx2 = original_len - 1; frac = src_pos - idx1;
shifted[i] = (Sint16)(original[idx1]*(1.0-frac) + original[idx2]*frac);`. -/
def resample_at (original : List ℤ) (r : ℚ) (i : ℕ) : ℤ :=
  let src_pos : ℚ := (i : ℚ) * r
  let idx1 : ℕ := (⌊src_pos⌋).toNat
  let idx2 : ℕ := min (idx1 + 1) (original.length - 1)
  let frac : ℚ := src_pos - (idx1 : ℚ)
  truncQ ((original.getD idx1 0 : ℚ) * (1 - frac) + (original.getD idx2 0 : ℚ) * frac)

/-- Embeds `pitch_shift_sample` (CTracker.c lines 116-151).  The fast path
(lines 118-126) returns a `memcpy` copy of the input; the slow path clamps the
ratio, sets `*new_len = (Uint32)(original_len / pitch_ratio)` (line 131) and
fills the output by linear interpolation (lines 137-148). -/
def pitch_shift_sample (original : List ℤ) (ratio : ℚ) : List ℤ :=
  if |ratio - 1| < 1/1000 then
    original
  else
    let r := clamp_pitch ratio
    (List.range ((⌊(original.length : ℚ) / r⌋).toNat)).map (resample_at original r)

theorem clamp_pitch_bounds (r : ℚ) : 1/2 ≤ clamp_pitch r ∧ clamp_pitch r ≤ 2 := by
  unfold clamp_pitch
  split_ifs with h1 h2 <;> constructor <;> norm_num <;> linarith

theorem clamp_pitch_eq_self {r : ℚ} (h1 : 1/2 ≤ r) (h2 : r ≤ 2) : clamp_pitch r = r := by
  unfold clamp_pitch
  rw [if_neg (by linarith), if_neg (by linarith)]

/-- Claim C9: resampling with ratio exactly 1.0 takes the fast path
(`|1.0 - 1.0| < 0.001`, CTracker.c line 118) and returns a byte-identical copy
of the source buffer. -/
theorem c9_ratio_one_identity (source : List ℤ) : pitch_shift_sample source 1 = source := by
  rw [pitch_shift_sample, if_pos (by norm_num)]

/-- Claim C3, counterexample: the claimed length law `len(out) = floor(len/r)`
fails inside the fast-path window.  For `r = 1000/1001 ∈ [0.5, 2]` (so
`|r - 1| = 1/1001 < 0.001`) and a 1001-sample source, the fast path
(CTracker.c lines 118-126) returns 1001 samples while
`floor(1001 / (1000/1001)) = floor(1002.001) = 1002`. -/
theorem c3_length_counterexample :
    (1/2 : ℚ) ≤ 1000/1001 ∧ (1000/1001 : ℚ) ≤ 2 ∧
    List.replicate 1001 (0 : ℤ) ≠ [] ∧
    (pitch_shift_sample (List.replicate 1001 0) (1000/1001)).length ≠
      (⌊((List.replicate 1001 (0 : ℤ)).length : ℚ) / (1000/1001)⌋).toNat := by
  have hne : List.replicate 1001 (0 : ℤ) ≠ [] := by
    intro h
    have h2 := congrArg List.length h
    simp only [List.length_replicate, List.length_nil] at h2
    exact absurd h2 (by norm_num)
  refine ⟨by norm_num, by norm_num, hne, ?_⟩
  rw [pitch_shift_sample, if_pos ?hfast]
  case hfast =>
    rw [show (1000/1001 : ℚ) - 1 = -(1/1001) by norm_num, abs_neg,
      abs_of_nonneg (by norm_num)]
    norm_num
  simp only [List.length_replicate]
  have hfl : ⌊((1001 : ℕ) : ℚ) / (1000/1001)⌋ = 1002 := by
    rw [Int.floor_eq_iff]
    push_cast
    norm_num
  rw [hfl]
  decide

/-- Claim C3, amended: outside the fast-path window (`|r - 1| ≥ 0.001`), for
every ratio `r ∈ [0.5, 2]` the output length is `floor(len(source)/r)`
(CTracker.c line 131); inside the window the fast path returns the source
length instead. -/
theorem c3_length_amended (src : List ℤ) (r : ℚ) (h1 : 1/2 ≤ r) (h2 : r ≤ 2)
    (h3 : ¬ |r - 1| < 1/1000) :
    (pitch_shift_sample src r).length = (⌊(src.length : ℚ) / r⌋).toNat := by
  rw [pitch_shift_sample, if_neg h3]
  simp [clamp_pitch_eq_self h1 h2]

/-- Witness for `c3_length_amended` at `src = [0,0,0]`, `r = 3/2`:
`floor(3 / 1.5) = 2`. -/
theorem c3_length_amended_witness :
    (1/2 : ℚ) ≤ 3/2 ∧ (3/2 : ℚ) ≤ 2 ∧ ¬ |(3/2 : ℚ) - 1| < 1/1000 ∧
    (pitch_shift_sample [0, 0, 0] (3/2)).length =
      (⌊(([0, 0, 0] : List ℤ).length : ℚ) / (3/2)⌋).toNat :=
  ⟨by norm_num, by norm_num, ratio_three_halves_not_fast,
    c3_length_amended [0, 0, 0] (3/2) (by norm_num) (by norm_num)
      ratio_three_halves_not_fast⟩

theorem convex_combo_bounds {a b : ℤ} {t : ℚ}
    (ha1 : -32768 ≤ a) (ha2 : a ≤ 32767) (hb1 : -32768 ≤ b) (hb2 : b ≤ 32767)
    (ht0 : 0 ≤ t) (ht1 : t ≤ 1) :
    (-32768 : ℚ) ≤ (a : ℚ) * (1 - t) + (b : ℚ) * t ∧
    (a : ℚ) * (1 - t) + (b : ℚ) * t ≤ (32767 : ℚ) := by
  have ha1q : (-32768 : ℚ) ≤ (a : ℚ) := by exact_mod_cast ha1
  have ha2q : (a : ℚ) ≤ 32767 := by exact_mod_cast ha2
  have hb1q : (-32768 : ℚ) ≤ (b : ℚ) := by exact_mod_cast hb1
  have hb2q : (b : ℚ) ≤ 32767 := by exact_mod_cast hb2
  have hl1 : (-32768 : ℚ) * (1 - t) ≤ (a : ℚ) * (1 - t) :=
    mul_le_mul_of_nonneg_right ha1q (by linarith)
  have hl2 : (-32768 : ℚ) * t ≤ (b : ℚ) * t := mul_le_mul_of_nonneg_right hb1q ht0
  have hu1 : (a : ℚ) * (1 - t) ≤ (32767 : ℚ) * (1 - t) :=
    mul_le_mul_of_nonneg_right ha2q (by linarith)
  have hu2 : (b : ℚ) * t ≤ (32767 : ℚ) * t := mul_le_mul_of_nonneg_right hb2q ht0
  constructor <;> linarith

/-- Soundness of one interpolation step (CTracker.c lines 137-148): when the
output index is in range (`i * r < len`), the two indices read are in bounds,
the weight is in `[0,1]`, and the produced sample is the truncation of a convex
combination of the two source samples, hence within the 16-bit range. -/
theorem resample_at_spec (original : List ℤ) (r : ℚ) (i : ℕ)
    (hs : ∀ s ∈ original, -32768 ≤ s ∧ s ≤ 32767)
    (hrpos : 0 < r) (hlt : (i : ℚ) * r < (original.length : ℚ)) :
    ∃ i1 i2 : ℕ, ∃ t : ℚ, i1 < original.length ∧ i2 < original.length ∧
      0 ≤ t ∧ t ≤ 1 ∧
      resample_at original r i =
        truncQ ((original.getD i1 0 : ℚ) * (1 - t) + (original.getD i2 0 : ℚ) * t) ∧
      -32768 ≤ resample_at original r i ∧ resample_at original r i ≤ 32767 := by
  have hsp0 : (0 : ℚ) ≤ (i : ℚ) * r := mul_nonneg (by positivity) (le_of_lt hrpos)
  have hcast : (((⌊(i : ℚ) * r⌋).toNat : ℤ)) = ⌊(i : ℚ) * r⌋ :=
    Int.toNat_of_nonneg (Int.floor_nonneg.2 hsp0)
  have hcastQ : (((⌊(i : ℚ) * r⌋).toNat : ℕ) : ℚ) = ((⌊(i : ℚ) * r⌋ : ℤ) : ℚ) := by
    exact_mod_cast congrArg (fun z : ℤ => (z : ℚ)) hcast
  have h1le : (((⌊(i : ℚ) * r⌋).toNat : ℕ) : ℚ) ≤ (i : ℚ) * r := by
    rw [hcastQ]; exact Int.floor_le _
  have hlt1Q : (((⌊(i : ℚ) * r⌋).toNat : ℕ) : ℚ) < (original.length : ℚ) :=
    lt_of_le_of_lt h1le hlt
  have hidx1 : (⌊(i : ℚ) * r⌋).toNat < original.length := by exact_mod_cast hlt1Q
  have hLpos : 0 < original.length := lt_of_le_of_lt (Nat.zero_le _) hidx1
  have hidx2 : min ((⌊(i : ℚ) * r⌋).toNat + 1) (original.length - 1) < original.length :=
    lt_of_le_of_lt (min_le_right _ _) (Nat.sub_lt hLpos one_pos)
  have ht0 : 0 ≤ (i : ℚ) * r - (((⌊(i : ℚ) * r⌋).toNat : ℕ) : ℚ) := by linarith
  have ht1 : (i : ℚ) * r - (((⌊(i : ℚ) * r⌋).toNat : ℕ) : ℚ) ≤ 1 := by
    rw [hcastQ]
    have := Int.lt_floor_add_one ((i : ℚ) * r)
    linarith
  have hmem1 : original.getD ((⌊(i : ℚ) * r⌋).toNat) 0 ∈ original := by
    rw [List.getD_eq_getElem original 0 hidx1]
    exact List.getElem_mem hidx1
  have hmem2 :
      original.getD (min ((⌊(i : ℚ) * r⌋).toNat + 1) (original.length - 1)) 0 ∈ original := by
    rw [List.getD_eq_getElem original 0 hidx2]
    exact List.getElem_mem hidx2
  obtain ⟨ha1, ha2⟩ := hs _ hmem1
  obtain ⟨hb1, hb2⟩ := hs _ hmem2
  obtain ⟨hcl, hcu⟩ := convex_combo_bounds ha1 ha2 hb1 hb2 ht0 ht1
  have heq : resample_at original r i =
      truncQ ((original.getD ((⌊(i : ℚ) * r⌋).toNat) 0 : ℚ) *
          (1 - ((i : ℚ) * r - (((⌊(i : ℚ) * r⌋).toNat : ℕ) : ℚ))) +
        (original.getD (min ((⌊(i : ℚ) * r⌋).toNat + 1) (original.length - 1)) 0 : ℚ) *
          ((i : ℚ) * r - (((⌊(i : ℚ) * r⌋).toNat : ℕ) : ℚ))) := rfl
  refine ⟨(⌊(i : ℚ) * r⌋).toNat, min ((⌊(i : ℚ) * r⌋).toNat + 1) (original.length - 1),
    (i : ℚ) * r - (((⌊(i : ℚ) * r⌋).toNat : ℕ) : ℚ), hidx1, hidx2, ht0, ht1, heq, ?_, ?_⟩
  · rw [heq]
    exact (truncQ_bounds (by exact_mod_cast hcl) (by exact_mod_cast hcu)).1
  · rw [heq]
    exact (truncQ_bounds (by exact_mod_cast hcl) (by exact_mod_cast hcu)).2

/-- Claim C8: for every source buffer of 16-bit samples and every ratio, each
output sample of `pitch_shift_sample` is the truncation of a convex combination
of two in-bounds source samples, and lies in `[-32768, 32767]`, so the
conversion `(Sint16)sample` at CTracker.c line 147 never needs saturation. -/
theorem c8_convex_no_saturation (source : List ℤ) (ratio : ℚ)
    (hs : ∀ s ∈ source, -32768 ≤ s ∧ s ≤ 32767) :
    ∀ i : ℕ, i < (pitch_shift_sample source ratio).length →
      ∃ i1 i2 : ℕ, ∃ t : ℚ, i1 < source.length ∧ i2 < source.length ∧ 0 ≤ t ∧ t ≤ 1 ∧
        (pitch_shift_sample source ratio).getD i 0 =
          truncQ ((source.getD i1 0 : ℚ) * (1 - t) + (source.getD i2 0 : ℚ) * t) ∧
        -32768 ≤ (pitch_shift_sample source ratio).getD i 0 ∧
        (pitch_shift_sample source ratio).getD i 0 ≤ 32767 := by
  intro i hi
  by_cases hfast : |ratio - 1| < 1/1000
  · have hps : pitch_shift_sample source ratio = source := by
      rw [pitch_shift_sample, if_pos hfast]
    rw [hps] at hi ⊢
    have hmem : source.getD i 0 ∈ source := by
      rw [List.getD_eq_getElem source 0 hi]
      exact List.getElem_mem hi
    obtain ⟨hb1, hb2⟩ := hs _ hmem
    refine ⟨i, i, 0, hi, hi, le_refl 0, zero_le_one, ?_, hb1, hb2⟩
    rw [show ((source.getD i 0 : ℚ) * (1 - 0) + (source.getD i 0 : ℚ) * 0) =
      ((source.getD i 0 : ℤ) : ℚ) by ring, truncQ_intCast]
  · have hps : pitch_shift_sample source ratio =
        (List.range ((⌊(source.length : ℚ) / clamp_pitch ratio⌋).toNat)).map
          (resample_at source (clamp_pitch ratio)) := by
      rw [pitch_shift_sample, if_neg hfast]
    obtain ⟨hr1, hr2⟩ := clamp_pitch_bounds ratio
    have hrpos : 0 < clamp_pitch ratio := by linarith
    rw [hps] at hi ⊢
    simp only [List.length_map, List.length_range] at hi
    have hgd : ((List.range ((⌊(source.length : ℚ) / clamp_pitch ratio⌋).toNat)).map
        (resample_at source (clamp_pitch ratio))).getD i 0 =
        resample_at source (clamp_pitch ratio) i := by
      rw [List.getD_eq_getElem _ 0 (by simpa using hi), List.getElem_map, List.getElem_range]
    rw [hgd]
    have hZ : (i : ℤ) < ⌊(source.length : ℚ) / clamp_pitch ratio⌋ := Int.lt_toNat.1 hi
    have hQ : ((i : ℚ) + 1) ≤ (source.length : ℚ) / clamp_pitch ratio := by
      have h1 : (i : ℤ) + 1 ≤ ⌊(source.length : ℚ) / clamp_pitch ratio⌋ := hZ
      have h2 := Int.le_floor.1 h1
      push_cast at h2
      linarith
    have hle : ((i : ℚ) + 1) * clamp_pitch ratio ≤ (source.length : ℚ) :=
      (le_div_iff₀ hrpos).1 hQ
    rw [add_mul, one_mul] at hle
    have hlt : (i : ℚ) * clamp_pitch ratio < (source.length : ℚ) := by linarith
    exact resample_at_spec source (clamp_pitch ratio) i hs hrpos hlt

/-- Witness for `c8_convex_no_saturation` at `source = [100, -200]`,
`ratio = 3/2` (one output sample, within 16-bit bounds). -/
theorem c8_convex_no_saturation_witness :
    (∀ s ∈ ([100, -200] : List ℤ), -32768 ≤ s ∧ s ≤ 32767) ∧
    -32768 ≤ (pitch_shift_sample [100, -200] (3/2)).getD 0 0 ∧
    (pitch_shift_sample [100, -200] (3/2)).getD 0 0 ≤ 32767 := by
  have hlen : 0 < (pitch_shift_sample [100, -200] (3/2)).length := by
    rw [pitch_shift_sample, if_neg ratio_three_halves_not_fast]
    rw [clamp_pitch_eq_self (by norm_num) (by norm_num)]
    simp only [List.length_map, List.length_range, List.length_cons, List.length_nil]
    norm_num
  obtain ⟨i1, i2, t, h1, h2, h3, h4, h5, hb1, hb2⟩ :=
    c8_convex_no_saturation [100, -200] (3/2) (by decide) 0 hlen
  exact ⟨by decide, hb1, hb2⟩

/-! ## Sample voice (CTracker.c lines 71-80 and 154-206, `play_sample_thread`) -/

/-- Embeds `SampleThreadData` (CTracker.c lines 71-80); the `pthread_t` handle
is omitted. -/
structure SampleThreadData where
  filename : String
  note : ℤ
  target_note : ℤ
  channel : ℤ
  duration_ms : ℤ
  pitch_ratio : ℚ
  active : ℤ

/-- Embeds `play_sample_thread` (CTracker.c lines 154-206) as a function of a
WAV-loading oracle `loadWav` standing for `Mix_LoadWAV` (returning the decoded
16-bit samples, or `none` when the file is missing/unreadable).  The result is
the audio the voice plays (`[]` = silence) paired with the thread data as left
behind by the call.  Lines 157-159: empty filename or cleared active flag →
return with no audio.  Lines 161-165: failed load → print an error and
`return NULL`; the thread data, including `active`, is not touched.  Lines
167-185: pitch shift via `pitch_shift_sample` when
`fabs(pitch_ratio - 1.0) > 0.001`.  Lines 196-203: play the chunk, then clear
`active` under the mutex. -/
def play_sample_thread (loadWav : String → Option (List ℤ))
    (d : SampleThreadData) : List ℤ × SampleThreadData :=
  if d.filename = "" ∨ d.active = 0 then ([], d)
  else
    match loadWav d.filename with
    | none => ([], d)
    | some buf =>
      let out := if |d.pitch_ratio - 1| > 1/1000
        then pitch_shift_sample buf d.pitch_ratio else buf
      (out, { d with active := 0 })

/-- A filesystem in which every asset is missing (`Mix_LoadWAV` always fails). -/
def missing_asset_fs : String → Option (List ℤ) := fun _ => none

/-- A sample voice as `play_row` would arm it (CTracker.c lines 468-480). -/
def sample_voice_ex : SampleThreadData :=
  { filename := "kick.wav", note := 60, target_note := 69, channel := 0,
    duration_ms := 125, pitch_ratio := 1, active := 1 }

/-- Claim C4, counterexample: on a missing asset the voice does produce silence
and no error escapes, but it does NOT mark itself inactive — the early
`return NULL` at CTracker.c line 164 skips the `data->active = 0` at line 202,
so the `active` flag stays `1`. -/
theorem c4_failure_counterexample :
    (play_sample_thread missing_asset_fs sample_voice_ex).1 = [] ∧
    (play_sample_thread missing_asset_fs sample_voice_ex).2.active = 1 := ⟨rfl, rfl⟩

/-- Claim C4, amended: if the asset fails to load, the voice produces silence
and returns normally (no error reaches the Scheduler), but its thread data —
in particular the `active` flag — is left completely unchanged; the flag is
only cleared externally (`play_row`, CTracker.c lines 447-456, at the next
row). -/
theorem c4_failure_amended (loadWav : String → Option (List ℤ)) (d : SampleThreadData)
    (h : loadWav d.filename = none) :
    play_sample_thread loadWav d = ([], d) := by
  unfold play_sample_thread
  split_ifs with h1 h2
  · rfl
  · rw [h]
  · rw [h]

/-- Witness for `c4_failure_amended` on the concrete voice `sample_voice_ex`
and the all-assets-missing filesystem. -/
theorem c4_failure_amended_witness :
    missing_asset_fs sample_voice_ex.filename = none ∧
    play_sample_thread missing_asset_fs sample_voice_ex = ([], sample_voice_ex) :=
  ⟨rfl, c4_failure_amended missing_asset_fs sample_voice_ex rfl⟩

/-! ## Offline mixer panning (CTracker.c lines 827-845 and 856-876) -/

/-- Embeds the per-frame mixing of one channel's mono voice sample into a
stereo row-buffer frame; the sample branch (CTracker.c lines 827-845) and the
tone branch (lines 856-876) have identical bodies:
`float pan = ch < 4 ? 0.7f : 0.3f;` then for `ch < 4` only the left entry is
updated, `clamp(row_l + (Sint16)(sample * pan))`, and for `ch >= 4` only the
right entry, `clamp(row_r + (Sint16)(sample * (1.0f - pan)))`. -/
def mix_sample_into_frame (ch : ℕ) (s : ℤ) (lr : ℤ × ℤ) : ℤ × ℤ :=
  let pan : ℚ := if ch < 4 then 7/10 else 3/10
  if ch < 4 then
    (clamp16 (lr.1 + truncQ ((s : ℚ) * pan)), lr.2)
  else
    (lr.1, clamp16 (lr.2 + truncQ ((s : ℚ) * (1 - pan))))

/-- Embeds the mixing loop `for (i = 0; i < samples_to_mix; i++)` (CTracker.c
line 827, `samples_to_mix = min(new_len, row_samples)` at line 824): the
voice's mono samples are mixed frame by frame into the stereo row buffer, and
row frames past the voice's end are left untouched. -/
def mix_voice_into_row (ch : ℕ) : List ℤ → List (ℤ × ℤ) → List (ℤ × ℤ)
  | _, [] => []
  | [], row => row
  | s :: voice, lr :: row => mix_sample_into_frame ch s lr :: mix_voice_into_row ch voice row

/-- Spec-side frame update for the amended C1: add `gain * s` (truncated, then
saturated) to the LEFT side only. -/
def frame_add_left (g : ℚ) (s : ℤ) (lr : ℤ × ℤ) : ℤ × ℤ :=
  (clamp16 (lr.1 + truncQ ((s : ℚ) * g)), lr.2)

/-- Spec-side frame update for the amended C1: add `gain * s` (truncated, then
saturated) to the RIGHT side only. -/
def frame_add_right (g : ℚ) (s : ℤ) (lr : ℤ × ℤ) : ℤ × ℤ :=
  (lr.1, clamp16 (lr.2 + truncQ ((s : ℚ) * g)))

/-- Spec-side pointwise overlay of a voice onto a row buffer (frames past the
voice's end are untouched). -/
def overlay_voice (f : ℤ → ℤ × ℤ → ℤ × ℤ) : List ℤ → List (ℤ × ℤ) → List (ℤ × ℤ)
  | _, [] => []
  | [], row => row
  | s :: voice, lr :: row => f s lr :: overlay_voice f voice row

/-- Claim C1, counterexample: mixing a voice sample `10000` on channel 0 into a
zeroed stereo frame leaves the RIGHT output at `0`, not at the
`0.3 × 10000 = 3000` the claim requires (channels 0-3 contribute nothing to
the right output, CTracker.c lines 832-837). -/
theorem c1_panning_counterexample :
    (mix_voice_into_row 0 [10000] [(0, 0)]).map Prod.snd = [0] ∧
    [(0 : ℤ)] ≠ [truncQ ((10000 : ℚ) * (3/10))] := by
  refine ⟨rfl, ?_⟩
  rw [show truncQ ((10000 : ℚ) * (3/10)) = 3000 from by
    rw [show ((10000 : ℚ) * (3/10)) = ((3000 : ℤ) : ℚ) by norm_num, truncQ_intCast]]
  simp

/-- Claim C1, amended: the panning law is hard, not proportional — channels
0-3 add `0.7 ×` the voice sample to the LEFT output only (the right output of
every frame is untouched), and channels 4-7 add `0.7 ×` the sample (computed
as `1.0 - 0.3`) to the RIGHT output only (the left is untouched); each
addition is saturated to `[-32768, 32767]`. -/
theorem c1_panning_amended (ch : ℕ) (voice : List ℤ) (row : List (ℤ × ℤ)) :
    mix_voice_into_row ch voice row =
      if ch < 4 then overlay_voice (frame_add_left (7/10)) voice row
      else overlay_voice (frame_add_right (7/10)) voice row := by
  have hgain : (1 : ℚ) - 3/10 = 7/10 := by norm_num
  induction voice generalizing row with
  | nil =>
    cases row <;> split_ifs <;> rfl
  | cons s voice ih =>
    cases row with
    | nil => split_ifs <;> rfl
    | cons lr row =>
      by_cases h : ch < 4
      · rw [if_pos h]
        show mix_sample_into_frame ch s lr :: mix_voice_into_row ch voice row =
          frame_add_left (7/10) s lr :: overlay_voice (frame_add_left (7/10)) voice row
        have hhead : mix_sample_into_frame ch s lr = frame_add_left (7/10) s lr := by
          unfold mix_sample_into_frame frame_add_left
          rw [if_pos h, if_pos h]
        have htail := ih row
        rw [if_pos h] at htail
        rw [hhead, htail]
      · rw [if_neg h]
        show mix_sample_into_frame ch s lr :: mix_voice_into_row ch voice row =
          frame_add_right (7/10) s lr :: overlay_voice (frame_add_right (7/10)) voice row
        have hhead : mix_sample_into_frame ch s lr = frame_add_right (7/10) s lr := by
          unfold mix_sample_into_frame frame_add_right
          rw [if_neg h, if_neg h, hgain]
        have htail := ih row
        rw [if_neg h] at htail
        rw [hhead, htail]

/-! ## Playback scheduler (CTracker.c lines 517-607, `play_song`) -/

/-- Embeds the row-advance step of the `play_song` loop (CTracker.c lines
572-587): `current_row++; if (song->loop_enabled) { if (current_row >
song->loop_end) current_row = song->loop_start; } else { if (current_row >=
song->num_rows) break; }`.  `none` means the loop breaks (playback stops). -/
def scheduler_next (song : Song) (current_row : ℤ) : Option ℤ :=
  let next := current_row + 1
  if song.loop_enabled ≠ 0 then
    if next > song.loop_end then some song.loop_start else some next
  else
    if next ≥ song.num_rows then none else some next

/-- The trace of rows played by `play_song` starting from row `cur` (CTracker.c
lines 558-588, with no stop keypress), truncated to `n` rows. -/
def scheduler_rows_from (song : Song) : ℤ → ℕ → List ℤ
  | _, 0 => []
  | cur, n + 1 =>
    cur ::
      (match scheduler_next song cur with
       | none => []
       | some nxt => scheduler_rows_from song nxt n)

/-- The first `n` rows played by `play_song` (`current_row` starts at 0,
CTracker.c line 558). -/
def scheduler_rows (song : Song) (n : ℕ) : List ℤ :=
  scheduler_rows_from song 0 n

/-- The row-advance policy in the words of the claim: `next_row = current_row
+ 1`; if loop enabled and `next_row > loop_end`, `next_row = loop_start`; if
loop disabled and `next_row ≥ row_count`, stop. -/
def claimed_next_row (song : Song) (current_row : ℤ) : Option ℤ :=
  let next := current_row + 1
  if song.loop_enabled ≠ 0 ∧ next > song.loop_end then some song.loop_start
  else if song.loop_enabled = 0 ∧ next ≥ song.num_rows then none
  else some next

/-- A default (all-rest) cell, as `main` initialises the pattern
(CTracker.c lines 1126-1142). -/
def rest_cell : Cell :=
  { note := 0, original_note := 60, duration_ms := 125, sample := "",
    playing := 0, pitch_ratio := 1 }

/-- A 16-row, 8-channel song with the loop window 2..5 enabled
(the configuration of the spec's loop-wrap test). -/
def loop_song : Song :=
  { channels := fun _ _ => rest_cell, num_channels := 8, num_rows := 16,
    bpm := 120, loop_start := 2, loop_end := 5, loop_enabled := 1 }

/-- Claim C6: the Scheduler's row advance is exactly the claimed policy, and
for `loop_start = 2, loop_end = 5` the played row sequence starts
`0,1,2,3,4,5,2,3,4,5,2`. -/
theorem c6_row_advance :
    (∀ (song : Song) (cur : ℤ), scheduler_next song cur = claimed_next_row song cur) ∧
    scheduler_rows loop_song 11 = [0, 1, 2, 3, 4, 5, 2, 3, 4, 5, 2] := by
  constructor
  · intro song cur
    unfold scheduler_next claimed_next_row
    by_cases he : song.loop_enabled ≠ 0
    · rw [if_pos he]
      by_cases hw : cur + 1 > song.loop_end
      · rw [if_pos hw, if_pos ⟨he, hw⟩]
      · rw [if_neg hw, if_neg (fun hc => hw hc.2),
          if_neg (fun hc => he hc.1)]
    · rw [if_neg he]
      push_neg at he
      by_cases hs : cur + 1 ≥ song.num_rows
      · rw [if_pos hs, if_neg (fun hc => hc.1 he), if_pos ⟨he, hs⟩]
      · rw [if_neg hs, if_neg (fun hc => hc.1 he), if_neg (fun hc => hs hc.2)]
  · decide

/-! ## Loop-window edits (CTracker.c lines 632-670 `set_loop`,
lines 952-1024 `load_song`) -/

/-- The Song loop invariant asserted by the spec:
`0 ≤ loop_start < loop_end < num_rows` whenever the loop is enabled. -/
def loop_invariant (song : Song) : Prop :=
  song.loop_enabled ≠ 0 →
    0 ≤ song.loop_start ∧ song.loop_start < song.loop_end ∧ song.loop_end < song.num_rows

instance (song : Song) : Decidable (loop_invariant song) := by
  unfold loop_invariant
  exact inferInstance

/-- Embeds `set_loop` (CTracker.c lines 632-670) as a function of the user's
answers: `choice` (the enable prompt), `start` and `end_row` (the two row
prompts).  On `y`/`Y` the code first sets `loop_enabled = 1`, then validates
`start >= 0 && start < end && end < song->num_rows` (line 658); an invalid
range disables the loop again (line 664) leaving `loop_start`/`loop_end`
untouched.  Any other choice disables the loop (line 667). -/
def set_loop (song : Song) (choice : Char) (start end_row : ℤ) : Song :=
  if choice = 'y' ∨ choice = 'Y' then
    if 0 ≤ start ∧ start < end_row ∧ end_row < song.num_rows then
      { song with loop_enabled := 1, loop_start := start, loop_end := end_row }
    else
      { song with loop_enabled := 0 }
  else
    { song with loop_enabled := 0 }

/-- Embeds the header part of `load_song` (CTracker.c lines 961-987), given
already-parsed field values (the `fscanf` calls at lines 965-987): `bpm`,
`num_rows`, `num_channels` and the loop triple are stored into the Song with
no validation whatsoever.  The subsequent cell-reading loop (lines 991-1017)
does not touch any of these fields. -/
def load_song_header (song : Song) (bpm rows chans en ls le : ℤ) : Song :=
  { song with
      bpm := bpm
      num_rows := rows
      num_channels := chans
      loop_enabled := en
      loop_start := ls
      loop_end := le }

/-- Claim C5, counterexample: loading a song file whose loop line reads
`Loop: 1 5 2` (loop enabled, start 5, end 2) succeeds and installs an invalid
loop window — `load_song` (CTracker.c line 983) performs no validation, so an
invalid range does reach the Scheduler. -/
theorem c5_loop_invariant_counterexample :
    ¬ loop_invariant (load_song_header loop_song 120 16 8 1 5 2) := by
  decide

/-- Claim C5, amended: `set_loop` (the interactive loop editor) always
establishes the invariant — an invalid range disables the loop — but
`load_song` installs the loop fields read from the file unvalidated, so an
invalid loop window can reach the Scheduler through song loading. -/
theorem c5_loop_invariant_amended (song : Song) (choice : Char) (start end_row : ℤ) :
    loop_invariant (set_loop song choice start end_row) := by
  unfold set_loop loop_invariant
  split_ifs with h1 h2
  · intro _
    exact h2
  · intro hc
    exact absurd rfl hc
  · intro hc
    exact absurd rfl hc

/-! ## Offline renderer row traversal (CTracker.c lines 733-901,
`save_song_to_wav`) -/

/-- Embeds the `total_rows` computation of `save_song_to_wav` (CTracker.c
lines 736-742): `total_rows = song->num_rows; if (song->loop_enabled &&
song->loop_end > song->loop_start) { total_rows = loop_end - loop_start + 1;
total_rows *= 4; }`. -/
def render_total_rows (song : Song) : ℤ :=
  if song.loop_enabled ≠ 0 ∧ song.loop_end > song.loop_start then
    (song.loop_end - song.loop_start + 1) * 4
  else song.num_rows

/-- Embeds the row loop of `save_song_to_wav` (CTracker.c lines 772-901),
returning the sequence of `actual_row` values rendered.  Each iteration with
`current_row < total_rows` (the `while` guard, line 775) computes
`actual_row = current_row % song->num_rows` (line 776, C `%` is `Int.tmod`);
if `song->loop_enabled && actual_row > song->loop_end` then
`actual_row = loop_start; loops_done++;` and the loop breaks BEFORE rendering
when `loops_done >= 4` (lines 778-782); otherwise the row is rendered and
`current_row++` (line 900).  `fuel` bounds the recursion; `rendered_rows`
supplies `total_rows` steps, one per possible `current_row` value. -/
def render_rows_aux (song : Song) : ℕ → ℤ → ℤ → List ℤ
  | 0, _, _ => []
  | fuel + 1, current_row, loops_done =>
    if current_row < render_total_rows song then
      let actual_row := current_row.tmod song.num_rows
      if song.loop_enabled ≠ 0 ∧ actual_row > song.loop_end then
        if loops_done + 1 ≥ 4 then []
        else song.loop_start :: render_rows_aux song fuel (current_row + 1) (loops_done + 1)
      else actual_row :: render_rows_aux song fuel (current_row + 1) loops_done
    else []

/-- The sequence of pattern rows rendered by `save_song_to_wav`
(`current_row = 0`, `loops_done = 0` at CTracker.c lines 772-773). -/
def rendered_rows (song : Song) : List ℤ :=
  render_rows_aux song (render_total_rows song).toNat 0 0

theorem render_rows_aux_length (song : Song) :
    ∀ (fuel : ℕ) (cur loops : ℤ), (render_rows_aux song fuel cur loops).length ≤ fuel := by
  intro fuel
  induction fuel with
  | zero =>
    intro cur loops
    simp [render_rows_aux]
  | succ n ih =>
    intro cur loops
    unfold render_rows_aux
    by_cases h1 : cur < render_total_rows song
    · rw [if_pos h1]
      by_cases h2 : song.loop_enabled ≠ 0 ∧ cur.tmod song.num_rows > song.loop_end
      · rw [if_pos h2]
        by_cases h3 : loops + 1 ≥ 4
        · rw [if_pos h3]
          simp
        · rw [if_neg h3]
          simp only [List.length_cons]
          exact Nat.succ_le_succ (ih (cur + 1) (loops + 1))
      · rw [if_neg h2]
        simp only [List.length_cons]
        exact Nat.succ_le_succ (ih (cur + 1) loops)
    · rw [if_neg h1]
      simp

/-- Claim C2, counterexample: for the loop window 2..5 in a 16-row song the
renderer renders only 9 rows, not `(5-2+1) × 4 = 16`, and the rendered row
sequence `0,1,2,3,4,5,2,2,2` is not the Scheduler's wrap sequence
`0,1,2,3,4,5,2,3,4` — the `%`-based mapping at CTracker.c line 776 replaces
every row past `loop_end` with `loop_start` instead of continuing from it. -/
theorem c2_render_counterexample :
    rendered_rows loop_song = [0, 1, 2, 3, 4, 5, 2, 2, 2] ∧
    (rendered_rows loop_song).length ≠
      ((loop_song.loop_end - loop_song.loop_start + 1) * 4).toNat ∧
    rendered_rows loop_song ≠ scheduler_rows loop_song 9 := by
  refine ⟨by decide, by decide, by decide⟩

/-- Claim C2, amended: with loop enabled the renderer computes
`total_rows = (loop_end - loop_start + 1) × 4` but renders AT MOST that many
rows, mapping each rendered index `i` to `i mod num_rows` and substituting
`loop_start` for any mapped row greater than `loop_end`; each substitution
counts as a loop iteration and the loop stops before rendering a row once the
counter reaches 4.  The resulting sequence can be shorter than `total_rows`
and differs from the Scheduler's wrap rule: for `loop_start = 2, loop_end = 5,
num_rows = 16` the renderer produces `0,1,2,3,4,5,2,2,2` (9 rows). -/
theorem c2_render_amended :
    (∀ song : Song, (rendered_rows song).length ≤ (render_total_rows song).toNat) ∧
    rendered_rows loop_song = [0, 1, 2, 3, 4, 5, 2, 2, 2] ∧
    rendered_rows loop_song ≠ scheduler_rows loop_song 9 := by
  refine ⟨fun song => render_rows_aux_length song _ 0 0, by decide, by decide⟩

/-! ## BPM editing (CTracker.c lines 610-629, `change_bpm`) -/

/-- Embeds `change_bpm` (CTracker.c lines 610-629) as a function of the value
the user enters: if `new_bpm >= 20 && new_bpm <= 300` (line 617) the Song's
`bpm` is replaced and every cell with `ch < num_channels` and
`row < num_rows` gets its `duration_ms` recomputed by `get_note_duration_ms`
under the new bpm (lines 618-624); otherwise (`Invalid BPM value`) the Song is
left untouched. -/
def change_bpm (song : Song) (new_bpm : ℤ) : Song :=
  if 20 ≤ new_bpm ∧ new_bpm ≤ 300 then
    { song with
        bpm := new_bpm
        channels := fun ch row =>
          if (ch : ℤ) < song.num_channels ∧ (row : ℤ) < song.num_rows then
            { song.channels ch row with
                duration_ms := get_note_duration_ms { song with bpm := new_bpm } }
          else song.channels ch row }
  else song

/-- Claim C10: `change_bpm` accepts only values in `[20, 300]`; outside that
range the Song is returned completely unchanged, and inside it `bpm` is set to
the new value and every cell of every channel in range gets `duration_ms`
recomputed from the new bpm as `(60000 / new_bpm) / 4`. -/
theorem c10_change_bpm (song : Song) (new_bpm : ℤ) :
    (¬ (20 ≤ new_bpm ∧ new_bpm ≤ 300) → change_bpm song new_bpm = song) ∧
    ((20 ≤ new_bpm ∧ new_bpm ≤ 300) →
      (change_bpm song new_bpm).bpm = new_bpm ∧
      ∀ ch row : ℕ, (ch : ℤ) < song.num_channels → (row : ℤ) < song.num_rows →
        ((change_bpm song new_bpm).channels ch row).duration_ms =
          ((60000 : ℤ).tdiv new_bpm).tdiv 4) := by
  constructor
  · intro h
    unfold change_bpm
    rw [if_neg h]
  · intro h
    have hne : new_bpm ≠ 0 := by
      intro h0
      rw [h0] at h
      exact absurd h.1 (by norm_num)
    constructor
    · unfold change_bpm
      rw [if_pos h]
    · intro ch row h1 h2
      have hredux : (change_bpm song new_bpm).channels ch row =
          { song.channels ch row with
              duration_ms := get_note_duration_ms { song with bpm := new_bpm } } := by
        unfold change_bpm
        rw [if_pos h]
        show (if (ch : ℤ) < song.num_channels ∧ (row : ℤ) < song.num_rows then _ else _) = _
        rw [if_pos ⟨h1, h2⟩]
      rw [hredux]
      show get_note_duration_ms { song with bpm := new_bpm } = _
      show (if new_bpm = 0 then (500 : ℤ) else ((60000 : ℤ).tdiv new_bpm).tdiv 4) = _
      rw [if_neg hne]

/-- Witness for `c10_change_bpm`: 10 is rejected (song unchanged); 125 is
accepted and cell (0,0) of the 8-channel, 16-row song gets duration
`(60000 / 125) / 4`. -/
theorem c10_change_bpm_witness :
    change_bpm loop_song 10 = loop_song ∧
    (change_bpm loop_song 125).bpm = 125 ∧
    ((change_bpm loop_song 125).channels 0 0).duration_ms =
      ((60000 : ℤ).tdiv 125).tdiv 4 := by
  refine ⟨(c10_change_bpm loop_song 10).1 ?_, ?_, ?_⟩
  · intro hc
    exact absurd hc.1 (by norm_num)
  · exact ((c10_change_bpm loop_song 125).2 (by norm_num)).1
  · exact ((c10_change_bpm loop_song 125).2 (by norm_num)).2 0 0 (by decide) (by decide)

/-! ## WAV serialization (CTracker.c lines 89-105 `WavHeader`,
lines 733-948 `save_song_to_wav`) -/

theorem toUint32_eq_of_bounds {n : ℤ} (h1 : 0 ≤ n) (h2 : n < 4294967296) :
    toUint32 n = n :=
  Int.emod_eq_of_lt h1 h2

/-- Little-endian byte pair of a 16-bit value (two's complement for negative
sample values), as laid out in memory and written by `fwrite` on a
little-endian machine. -/
def le16 (v : ℤ) : List ℕ :=
  [((v % 65536) % 256).toNat, ((v % 65536) / 256).toNat]

/-- Little-endian bytes of a 32-bit value. -/
def le32 (v : ℤ) : List ℕ :=
  [((v % 4294967296) % 256).toNat,
   (((v % 4294967296) / 256) % 256).toNat,
   (((v % 4294967296) / 65536) % 256).toNat,
   ((v % 4294967296) / 16777216).toNat]

/-- ASCII bytes of a 4-character tag (the `memcpy(header.riff, "RIFF", 4)`
group, CTracker.c lines 917-920). -/
def tag_bytes (s : String) : List ℕ := s.toList.map Char.toNat

/-- The numeric fields of the packed `WavHeader` struct
(CTracker.c lines 90-104). -/
structure WavHeaderData where
  file_size : ℤ
  fmt_size : ℤ
  audio_format : ℤ
  num_channels : ℤ
  sample_rate : ℤ
  byte_rate : ℤ
  block_align : ℤ
  bits_per_sample : ℤ
  data_size : ℤ

/-- Embeds the header construction of `save_song_to_wav` (CTracker.c lines
916-931) for a given `total_samples` (stereo frame count, a `Uint32`):
`fmt_size = 16; audio_format = 1; num_channels = 2; sample_rate = 44100;
bits_per_sample = 16; block_align = num_channels * bits_per_sample / 8;
byte_rate = sample_rate * block_align; data_size = total_samples * 2 *
sizeof(Sint16); file_size = data_size + sizeof(WavHeader) - 8;`
(`sizeof(WavHeader) = 44` for the packed struct). -/
def make_wav_header (total_samples : ℤ) : WavHeaderData :=
  { fmt_size := 16
    audio_format := 1
    num_channels := 2
    sample_rate := 44100
    bits_per_sample := 16
    block_align := ((2 * 16 : ℤ)).tdiv 8
    byte_rate := 44100 * (((2 * 16 : ℤ)).tdiv 8)
    data_size := toUint32 (total_samples * 2 * 2)
    file_size := toUint32 (toUint32 (total_samples * 2 * 2) + 44 - 8) }

/-- The 44 bytes of the packed `WavHeader` (CTracker.c lines 89-105) as
written by `fwrite(&header, sizeof(WavHeader), 1, wav_file)` (line 934) on a
little-endian machine. -/
def header_bytes (h : WavHeaderData) : List ℕ :=
  tag_bytes "RIFF" ++ le32 h.file_size ++ tag_bytes "WAVE" ++ tag_bytes "fmt " ++
    le32 h.fmt_size ++ le16 h.audio_format ++ le16 h.num_channels ++
    le32 h.sample_rate ++ le32 h.byte_rate ++ le16 h.block_align ++
    le16 h.bits_per_sample ++ tag_bytes "data" ++ le32 h.data_size

/-- The audio payload as written by
`fwrite(audio_buffer, sizeof(Sint16), total_samples * 2, wav_file)`
(CTracker.c line 937): interleaved little-endian L/R 16-bit frames
(`audio_buffer[2i]` = left, `audio_buffer[2i+1]` = right, lines 880-894). -/
def wav_data_bytes : List (ℤ × ℤ) → List ℕ
  | [] => []
  | p :: frames => le16 p.1 ++ le16 p.2 ++ wav_data_bytes frames

/-- The full WAV file image: 44-byte header followed by the interleaved
sample data. -/
def wav_file_bytes (h : WavHeaderData) (frames : List (ℤ × ℤ)) : List ℕ :=
  header_bytes h ++ wav_data_bytes frames

/-- Embeds the `total_samples` computation of `save_song_to_wav` (CTracker.c
line 744): `Uint32 total_samples = total_rows * note_duration * SAMPLE_RATE /
1000;` (`int` arithmetic, truncating division, then conversion to `Uint32`). -/
def total_samples (song : Song) : ℤ :=
  toUint32 ((render_total_rows song * get_note_duration_ms song * 44100).tdiv 1000)

/-- The end-to-end test song of the spec: 1 row, 1 channel, note 69 (A4), no
sample, loop disabled. -/
def song_A4 (bpm : ℤ) : Song :=
  { channels := fun ch row =>
      if ch = 0 ∧ row = 0 then
        { note := 69, original_note := 60, duration_ms := 0, sample := "",
          playing := 0, pitch_ratio := 1 }
      else rest_cell
    num_channels := 1
    num_rows := 1
    bpm := bpm
    loop_start := 0
    loop_end := 15
    loop_enabled := 0 }

theorem get_note_duration_ms_bounds (song : Song) (h : 0 ≤ song.bpm) :
    0 ≤ get_note_duration_ms song ∧ get_note_duration_ms song ≤ 15000 := by
  unfold get_note_duration_ms
  split_ifs with h0
  · norm_num
  · rw [tdiv_eq_ediv_nonneg (by norm_num) h,
      tdiv_eq_ediv_nonneg (Int.ediv_nonneg (by norm_num) h) (by norm_num)]
    refine ⟨Int.ediv_nonneg (Int.ediv_nonneg (by norm_num) h) (by norm_num), ?_⟩
    have h1 : (60000 : ℤ) / song.bpm ≤ 60000 := Int.ediv_le_self _ (by norm_num)
    have h2 : (60000 : ℤ) / song.bpm / 4 ≤ 60000 / 4 :=
      Int.ediv_le_ediv (by norm_num) h1
    have h3 : (60000 : ℤ) / 4 = 15000 := by decide
    rw [h3] at h2
    exact h2

theorem wav_data_bytes_length (frames : List (ℤ × ℤ)) :
    (wav_data_bytes frames).length = 4 * frames.length := by
  induction frames with
  | nil => rfl
  | cons p frames ih =>
    show (le16 p.1 ++ le16 p.2 ++ wav_data_bytes frames).length = 4 * (p :: frames).length
    rw [List.length_append, List.length_append, ih]
    simp only [le16, List.length_cons, List.length_nil, List.length]
    omega

/-- Claim C7: the WAV export writes a 44-byte RIFF/WAVE header declaring
PCM (`audio_format = 1`), 2 channels, 44100 Hz, 16 bits per sample,
`block_align = 4`, `byte_rate = sample_rate × block_align`, fmt subchunk size
16, data subchunk size = stereo sample count × 2 bytes (`total_samples × 4`),
and RIFF chunk size = file size − 8; the file is the header followed by the
interleaved L/R int16 frames (4 bytes per frame); and for a 1-row, 1-channel
song with note 69 and no sample the data length is
`row_ms × 44100 / 1000 × 4` bytes. -/
theorem c7_wav_header :
    (∀ ts : ℤ, 0 ≤ ts → ts * 4 + 36 < 4294967296 →
      (make_wav_header ts).audio_format = 1 ∧
      (make_wav_header ts).num_channels = 2 ∧
      (make_wav_header ts).sample_rate = 44100 ∧
      (make_wav_header ts).bits_per_sample = 16 ∧
      (make_wav_header ts).block_align = 4 ∧
      (make_wav_header ts).byte_rate = 44100 * 4 ∧
      (make_wav_header ts).fmt_size = 16 ∧
      (make_wav_header ts).data_size = ts * 2 * 2 ∧
      (make_wav_header ts).file_size = (44 + ts * 2 * 2) - 8) ∧
    (∀ h : WavHeaderData, (header_bytes h).length = 44) ∧
    (∀ (h : WavHeaderData) (frames : List (ℤ × ℤ)),
      (wav_file_bytes h frames).length = 44 + 4 * frames.length) ∧
    (∀ bpm : ℤ, 0 ≤ bpm →
      (make_wav_header (total_samples (song_A4 bpm))).data_size =
        (get_note_duration_ms (song_A4 bpm) * 44100).tdiv 1000 * 4) := by
  have hlen44 : ∀ h : WavHeaderData, (header_bytes h).length = 44 := fun h => rfl
  refine ⟨?_, hlen44, ?_, ?_⟩
  · intro ts h1 h2
    have hmul : ts * 2 * 2 = ts * 4 := by ring
    have hnn : 0 ≤ ts * 2 * 2 := by nlinarith
    have hlt : ts * 2 * 2 < 4294967296 := by nlinarith
    have hds : toUint32 (ts * 2 * 2) = ts * 2 * 2 := toUint32_eq_of_bounds hnn hlt
    refine ⟨rfl, rfl, rfl, rfl, ?_, ?_, rfl, hds, ?_⟩
    · show ((2 * 16 : ℤ)).tdiv 8 = 4
      decide
    · show (44100 : ℤ) * (((2 * 16 : ℤ)).tdiv 8) = 44100 * 4
      decide
    show toUint32 (toUint32 (ts * 2 * 2) + 44 - 8) = (44 + ts * 2 * 2) - 8
    rw [hds]
    rw [toUint32_eq_of_bounds (by nlinarith) (by nlinarith)]
    ring
  · intro h frames
    unfold wav_file_bytes
    rw [List.length_append, hlen44 h, wav_data_bytes_length]
  · intro bpm hb
    obtain ⟨hd0, hd1⟩ := get_note_duration_ms_bounds (song_A4 bpm) hb
    have htr : render_total_rows (song_A4 bpm) = 1 := by
      unfold render_total_rows
      rw [if_neg]
      · rfl
      · intro hc
        exact hc.1 rfl
    have hts0 : 0 ≤ (get_note_duration_ms (song_A4 bpm) * 44100).tdiv 1000 :=
      Int.tdiv_nonneg (mul_nonneg hd0 (by norm_num)) (by norm_num)
    have htsle : (get_note_duration_ms (song_A4 bpm) * 44100).tdiv 1000 ≤ 661500 := by
      rw [tdiv_eq_ediv_nonneg (mul_nonneg hd0 (by norm_num)) (by norm_num)]
      have hm : get_note_duration_ms (song_A4 bpm) * 44100 ≤ 661500000 := by nlinarith
      have h2 := Int.ediv_le_ediv (by norm_num : (0 : ℤ) < 1000) hm
      have h3 : (661500000 : ℤ) / 1000 = 661500 := by decide
      rw [h3] at h2
      exact h2
    have hts : total_samples (song_A4 bpm) =
        (get_note_duration_ms (song_A4 bpm) * 44100).tdiv 1000 := by
      unfold total_samples
      rw [htr, one_mul]
      exact toUint32_eq_of_bounds hts0 (by linarith)
    show toUint32 (total_samples (song_A4 bpm) * 2 * 2) = _
    rw [hts]
    rw [show (get_note_duration_ms (song_A4 bpm) * 44100).tdiv 1000 * 2 * 2 =
      (get_note_duration_ms (song_A4 bpm) * 44100).tdiv 1000 * 4 by ring]
    exact toUint32_eq_of_bounds (by linarith) (by linarith)

/-- Witness for `c7_wav_header` at `ts = 5512` and `bpm = 120` (the values of
the spec's end-to-end test: `row_ms = 125`, `total_samples = 5512`). -/
theorem c7_wav_header_witness :
    (0 : ℤ) ≤ 5512 ∧ (5512 : ℤ) * 4 + 36 < 4294967296 ∧
    (make_wav_header 5512).data_size = 5512 * 2 * 2 ∧
    (0 : ℤ) ≤ 120 ∧
    (make_wav_header (total_samples (song_A4 120))).data_size =
      (get_note_duration_ms (song_A4 120) * 44100).tdiv 1000 * 4 := by
  refine ⟨by norm_num, by norm_num, ?_, by norm_num, ?_⟩
  · exact (c7_wav_header.1 5512 (by norm_num) (by norm_num)).2.2.2.2.2.2.2.1
  · exact c7_wav_header.2.2.2 120 (by norm_num)

end CTracker
